import Mathlib

/-!
Verification of the cloud-messaging dispatch module (`push_notifications/gcm.py`).

The Python module is shallowly embedded: Python dicts become association
lists over a small JSON-like value type, the device registry (Django ORM)
becomes an explicit list of records threaded through the functions, and the
HTTP transport becomes an oracle `net : Payload → CMResponse` together with
an explicit trace of the requests actually issued.  Exceptions become an
`Except` result; registry mutations additionally leave a trace of
`RegistryCall`s so that claims about "registry calls" can be stated.
-/

set_option maxHeartbeats 1000000

namespace GCM

/-- A JSON-like value, as stored in the Python dicts handled by the module.
Truthiness mirrors Python: empty string, zero, `False` and `None` are falsy. -/
inductive JVal where
  | vstr : String → JVal
  | vnum : Int → JVal
  | vbool : Bool → JVal
  | vnull : JVal
  deriving DecidableEq, Repr

/-- Python truthiness of a `JVal`. -/
def JVal.truthy : JVal → Bool
  | .vstr s => !(s == "")
  | .vnum n => !(n == 0)
  | .vbool b => b
  | .vnull => false

/-- A Python dict with string keys, modelled as an association list
(keys are unique in any dict produced by the Python runtime). -/
abbrev Dict := List (String × JVal)

/-- Python `d.get(k)` / `d[k]`: the value at the first matching key. -/
def dget : Dict → String → Option JVal
  | [], _ => none
  | (k', v) :: t, k => if k' == k then some v else dget t k

/-- Python `d.pop(k, None)`, the removal half: drop the entry for `k`. -/
def dremove : Dict → String → Dict
  | [], _ => []
  | (k', v) :: t, k => if k' == k then dremove t k else (k', v) :: dremove t k

/-- Python `d[k] = v`: replace the value at `k` in place, or append the
binding if the key is absent. -/
def dset : Dict → String → JVal → Dict
  | [], k, v => [(k, v)]
  | (k', v') :: t, k, v => if k' == k then (k, v) :: t else (k', v') :: dset t k v

/-- Python truthiness of `d.get(k)` (`False` when the key is absent). -/
def truthyAt (d : Dict) (k : String) : Bool :=
  match dget d k with
  | some v => v.truthy
  | none => false

/-- Python truthiness of an optional string (`None` and `""` are falsy). -/
def truthyStr : Option String → Bool
  | none => false
  | some s => !(s == "")

/-- `FCM_TARGETS_KEYS` from the source. -/
def FCM_TARGETS_KEYS : List String := ["to", "condition", "notification_key"]

/-- `FCM_OPTIONS_KEYS` from the source. -/
def FCM_OPTIONS_KEYS : List String :=
  ["collapse_key", "priority", "content_available", "delay_while_idle",
   "time_to_live", "restricted_package_name", "dry_run"]

/-- `FCM_NOTIFICATIONS_PAYLOAD_KEYS` from the source. -/
def FCM_NOTIFICATIONS_PAYLOAD_KEYS : List String :=
  ["title", "body", "icon", "sound", "badge", "color", "tag", "click_action",
   "body_loc_key", "body_loc_args", "title_loc_key", "title_loc_args"]

/-- One entry of the `results` array of a parsed gateway response
(`result.get("error")`, `result.get("registration_id")`). -/
structure CMResult where
  error : Option String
  registration_id : Option String
  deriving DecidableEq, Repr

/-- A parsed gateway response.  An absent `failure` / `canonical_ids`
count is modelled as `0` (both are falsy in the Python code). -/
structure CMResponse where
  failure : Nat
  canonical_ids : Nat
  results : List CMResult
  deriving DecidableEq, Repr

/-- A `GCMDevice` row of the device registry. -/
structure DeviceRecord where
  registration_id : String
  cloud_message_type : String
  active : Bool
  deriving DecidableEq, Repr

/-- A mutating call issued against the device registry. -/
inductive RegistryCall where
  | deactivateBulk : List String → String → RegistryCall
  | canonicalMigrate : String → String → String → RegistryCall
  deriving DecidableEq, Repr

/-- The exceptions the module can raise. -/
inductive PushErr where
  | improperlyConfigured : String → PushErr
  | indexError : PushErr
  | gcmError : CMResponse → PushErr
  deriving DecidableEq, Repr

/-- The `PUSH_NOTIFICATIONS_SETTINGS` entries the module reads. -/
structure Settings where
  GCM_API_KEY : Option String
  FCM_API_KEY : Option String
  GCM_MAX_RECIPIENTS : Nat
  FCM_MAX_RECIPIENTS : Nat
  deriving DecidableEq, Repr

/-- The JSON payload built by `_cm_send_request`.  The fixed top-level keys
are kept as fields; `extra` holds the allow-listed keyword options (whose
names are disjoint from the fixed keys). -/
structure Payload where
  registration_ids : Option (List String)
  notification : Option Dict
  data : Option Dict
  extra : Dict
  deriving DecidableEq, Repr

/-- `_chunks` from the source: successive slices `l[i:i+n]` for
`i = 0, n, 2n, …` (Python `range(0, len(l), n)`; the `n = 0` case raises in
Python and is unreachable here since every cap used is positive). -/
def _chunks (l : List α) (n : Nat) : List (List α) :=
  if l.isEmpty || n == 0 then []
  else l.take n :: _chunks (l.drop n) n
termination_by l.length
decreasing_by
  rename_i h
  simp only [Bool.or_eq_true, List.isEmpty_iff, beq_iff_eq, not_or] at h
  have h1 : 0 < l.length := List.length_pos.mpr h.1
  have h2 : 0 < n := Nat.pos_of_ne_zero h.2
  simp only [List.length_drop]
  omega

/-- The bulk deactivation
`GCMDevice.objects.filter(registration_id__in=ids, cloud_message_type=ct).update(active=0)`. -/
def gcmDeactivateBulk (ids : List String) (ct : String) (reg : List DeviceRecord) :
    List DeviceRecord :=
  reg.map fun d =>
    if ids.contains d.registration_id && (d.cloud_message_type == ct) then
      { d with active := false }
    else d

/-- Whether an active record with the given registration id and cloud type
exists (`GCMDevice.objects.filter(..., active=True).exists()`). -/
def activeNewExists (canonical_id ct : String) (reg : List DeviceRecord) : Bool :=
  reg.any fun d =>
    (d.registration_id == canonical_id) && (d.cloud_message_type == ct) && d.active

/-- `_gcm_handle_canonical_id` from the source. -/
def _gcm_handle_canonical_id (canonical_id current_id ct : String)
    (reg : List DeviceRecord) : List DeviceRecord :=
  if activeNewExists canonical_id ct reg then
    reg.map fun d =>
      if (d.registration_id == current_id) && (d.cloud_message_type == ct) then
        { d with active := false }
      else d
  else
    reg.map fun d =>
      if (d.registration_id == current_id) && (d.cloud_message_type == ct) then
        { d with registration_id := canonical_id }
      else d

/-- Whether the error code is one of the two deactivation codes. -/
def errIsDeact : Option String → Bool
  | some s => (s == "NotRegistered") || (s == "InvalidRegistration")
  | none => false

/-- Subscripting `registration_ids[index]` where `registration_ids` may be
`None`; `none` stands for the `TypeError` / `IndexError` the subscript
raises in Python. -/
def ridGet : Option (List String) → Nat → Option String
  | none, _ => none
  | some l, i => l.get? i

/-- The classification loop of `_cm_handle_response`: walks `results`
by position, collecting `ids_to_remove`, `old_new_ids` and `throw_error`;
fails like Python does when `registration_ids[index]` is not available. -/
def collectLoop (rids : Option (List String)) :
    Nat → List CMResult → Except Unit (List String × List (String × String) × Bool)
  | _, [] => .ok ([], [], false)
  | i, r :: rest =>
    let step1 : Except Unit (List String × Bool) :=
      if truthyStr r.error then
        if errIsDeact r.error then
          match ridGet rids i with
          | some rid => .ok ([rid], false)
          | none => .error ()
        else .ok ([], true)
      else .ok ([], false)
    match step1 with
    | .error e => .error e
    | .ok (dl, te) =>
      let step2 : Except Unit (List (String × String)) :=
        match r.registration_id with
        | some nid =>
          if nid == "" then .ok []
          else
            match ridGet rids i with
            | some rid => .ok [(rid, nid)]
            | none => .error ()
        | none => .ok []
      match step2 with
      | .error e => .error e
      | .ok ml =>
        match collectLoop rids (i + 1) rest with
        | .error e => .error e
        | .ok (dl', ml', te') => .ok (dl ++ dl', ml ++ ml', te || te')

/-- Result of `_cm_handle_response`: the returned/raised value, the registry
after the call, and the trace of registry calls issued. -/
structure HandleOut where
  result : Except PushErr CMResponse
  registry : List DeviceRecord
  calls : List RegistryCall

/-- `_cm_handle_response` from the source.  On `IndexError` no registry
call has been issued yet (the bulk update and the migrations run only after
the loop); on `GCMError` all of them have. -/
def _cm_handle_response (registration_ids : Option (List String))
    (response : CMResponse) (cloud_type : String)
    (registry : List DeviceRecord) : HandleOut :=
  if response.failure ≠ 0 ∨ response.canonical_ids ≠ 0 then
    match collectLoop registration_ids 0 response.results with
    | .error _ => ⟨.error .indexError, registry, []⟩
    | .ok (ids_to_remove, old_new_ids, throw_error) =>
      let st1 : List DeviceRecord × List RegistryCall :=
        if ids_to_remove.isEmpty then (registry, [])
        else (gcmDeactivateBulk ids_to_remove cloud_type registry,
              [.deactivateBulk ids_to_remove cloud_type])
      let st2 := old_new_ids.foldl
        (fun st p => (_gcm_handle_canonical_id p.2 p.1 cloud_type st.1,
                      st.2 ++ [.canonicalMigrate p.2 p.1 cloud_type]))
        st1
      if throw_error then ⟨.error (.gcmError response), st2.1, st2.2⟩
      else ⟨.ok response, st2.1, st2.2⟩
  else ⟨.ok response, registry, []⟩

/-- One `if value: notification_payload[key] = value` step of the
extraction loop: store a popped value if it is truthy. -/
def condSet (np : Dict) (k : String) (o : Option JVal) : Dict :=
  match o with
  | some v => if v.truthy then dset np k v else np
  | none => np

/-- The notification-key extraction loop of `_cm_send_request`
(`for key in FCM_NOTIFICATIONS_PAYLOAD_KEYS: ...`): pops each key from
`data` and from the keyword options, keeping truthy values; note the value
popped from the options is assigned after the one popped from `data`. -/
def extractNotificationKeys :
    List String → Dict → Dict → Dict → Dict × Dict × Dict
  | [], np, d, kw => (np, d, kw)
  | k :: rest, np, d, kw =>
    extractNotificationKeys rest
      (condSet (condSet np k (dget d k)) k (dget kw k))
      (dremove d k) (dremove kw k)

/-- The payload-building part of `_cm_send_request` (everything before the
send).  Returns the payload together with `data` and the keyword options as
the function leaves them — `data.pop` mutates the caller's dict. -/
def build_cm_payload (registration_ids : Option (List String)) (data : Dict)
    (cloud_type : String) (use_fcm_notifications : Bool) (kwargs : Dict) :
    Payload × Dict × Dict :=
  let pl_rids : Option (List String) :=
    match registration_ids with
    | some l => if l.isEmpty then none else some l
    | none => none
  if (cloud_type == "FCM") && use_fcm_notifications then
    let md := match dget data "message" with
      | some v => ([("body", v)], dremove data "message")
      | none => (([] : Dict), data)
    let e := extractNotificationKeys FCM_NOTIFICATIONS_PAYLOAD_KEYS md.1 md.2 kwargs
    let payload : Payload :=
      { registration_ids := pl_rids
        notification := if e.1.isEmpty then none else some e.1
        data := if e.2.1.isEmpty then none else some e.2.1
        extra := e.2.2.filter fun p =>
          p.2.truthy && (FCM_TARGETS_KEYS.contains p.1 || FCM_OPTIONS_KEYS.contains p.1) }
    (payload, e.2.1, e.2.2)
  else
    let payload : Payload :=
      { registration_ids := pl_rids
        notification := none
        data := if data.isEmpty then none else some data
        extra := kwargs.filter fun p =>
          p.2.truthy && (FCM_TARGETS_KEYS.contains p.1 || FCM_OPTIONS_KEYS.contains p.1) }
    (payload, data, kwargs)

/-- `_gcm_send` from the source, with the HTTP round trip abstracted as the
oracle `net`.  The second component is the trace of network requests made. -/
def _gcm_send (settings : Settings) (net : Payload → CMResponse)
    (payload : Payload) : Except PushErr CMResponse × List Payload :=
  if !truthyStr settings.GCM_API_KEY then
    (.error (.improperlyConfigured "GCM_API_KEY"), [])
  else (.ok (net payload), [payload])

/-- `_fcm_send` from the source, abstracted like `_gcm_send`. -/
def _fcm_send (settings : Settings) (net : Payload → CMResponse)
    (payload : Payload) : Except PushErr CMResponse × List Payload :=
  if !truthyStr settings.FCM_API_KEY then
    (.error (.improperlyConfigured "FCM_API_KEY"), [])
  else (.ok (net payload), [payload])

/-- Result of `_cm_send_request`: outcome, the caller's `data` dict after
the call, the registry, the registry-call trace and the network trace. -/
structure SendOut where
  result : Except PushErr CMResponse
  data : Dict
  registry : List DeviceRecord
  calls : List RegistryCall
  requests : List Payload

/-- `_cm_send_request` from the source. -/
def _cm_send_request (settings : Settings) (net : Payload → CMResponse)
    (registration_ids : Option (List String)) (data : Dict)
    (cloud_type : String) (use_fcm_notifications : Bool) (kwargs : Dict)
    (registry : List DeviceRecord) : SendOut :=
  let b := build_cm_payload registration_ids data cloud_type use_fcm_notifications kwargs
  let sent : Except PushErr CMResponse × List Payload :=
    if cloud_type == "GCM" then _gcm_send settings net b.1
    else if cloud_type == "FCM" then _fcm_send settings net b.1
    else (.error (.improperlyConfigured "cloud_type"), [])
  match sent with
  | (.error e, reqs) => ⟨.error e, b.2.1, registry, [], reqs⟩
  | (.ok resp, reqs) =>
    let h := _cm_handle_response registration_ids resp cloud_type registry
    ⟨h.result, b.2.1, h.registry, h.calls, reqs⟩

/-- Python `"/topics/" in kwargs.get("to", "")` (a non-string value under
`"to"` raises in Python and is modelled as no topic). -/
def topicInTo (kwargs : Dict) : Bool :=
  match dget kwargs "to" with
  | some (.vstr s) => decide (List.IsInfix "/topics/".toList s.toList)
  | some _ => false
  | none => false

/-- Value returned by `send_bulk_message`: `None`, a single reconciled
response, or the list of per-chunk reconciled responses. -/
inductive BulkRet where
  | nothing : BulkRet
  | single : CMResponse → BulkRet
  | multi : List CMResponse → BulkRet
  deriving DecidableEq, Repr

/-- Result of `send_bulk_message`, with the same traces as `SendOut`. -/
structure BulkOut where
  result : Except PushErr BulkRet
  data : Dict
  registry : List DeviceRecord
  calls : List RegistryCall
  requests : List Payload

/-- The `for chunk in _chunks(...)` loop of `send_bulk_message`: sends the
chunks in order, threading the caller's `data` dict (mutated in place by
`_cm_send_request`) and the registry; stops at the first raised exception. -/
def sendChunksLoop (settings : Settings) (net : Payload → CMResponse)
    (cloud_type : String) (use_fcm_notifications : Bool) (kwargs : Dict) :
    List (List String) → Dict → List DeviceRecord → List CMResponse →
    List RegistryCall → List Payload →
    Except PushErr (List CMResponse) × Dict × List DeviceRecord ×
      List RegistryCall × List Payload
  | [], d, reg, acc, calls, reqs => (.ok acc, d, reg, calls, reqs)
  | c :: cs, d, reg, acc, calls, reqs =>
    let o := _cm_send_request settings net (some c) d cloud_type
      use_fcm_notifications kwargs reg
    match o.result with
    | .error e => (.error e, o.data, o.registry, calls ++ o.calls, reqs ++ o.requests)
    | .ok r => sendChunksLoop settings net cloud_type use_fcm_notifications kwargs
        cs o.data o.registry (acc ++ [r]) (calls ++ o.calls) (reqs ++ o.requests)

/-- Wrap a single `_cm_send_request` outcome as a `send_bulk_message`
return value. -/
def bulkWrapSingle (o : SendOut) : BulkOut :=
  match o.result with
  | .error e => ⟨.error e, o.data, o.registry, o.calls, o.requests⟩
  | .ok resp => ⟨.ok (.single resp), o.data, o.registry, o.calls, o.requests⟩

/-- `send_bulk_message` from the source. -/
def send_bulk_message (settings : Settings) (net : Payload → CMResponse)
    (registration_ids : Option (List String)) (data : Dict)
    (cloud_type : String) (use_fcm_notifications : Bool) (kwargs : Dict)
    (registry : List DeviceRecord) : BulkOut :=
  if (cloud_type == "GCM") || (cloud_type == "FCM") then
    let maxR := if cloud_type == "GCM" then settings.GCM_MAX_RECIPIENTS
      else settings.FCM_MAX_RECIPIENTS
    if registration_ids.isNone && !topicInTo kwargs then
      ⟨.ok .nothing, data, registry, [], []⟩
    else
      match registration_ids with
      | some l =>
        if !l.isEmpty && decide (maxR < l.length) then
          let r := sendChunksLoop settings net cloud_type use_fcm_notifications
            kwargs (_chunks l maxR) data registry [] [] []
          match r.1 with
          | .error e => ⟨.error e, r.2.1, r.2.2.1, r.2.2.2.1, r.2.2.2.2⟩
          | .ok rets => ⟨.ok (.multi rets), r.2.1, r.2.2.1, r.2.2.2.1, r.2.2.2.2⟩
        else
          bulkWrapSingle (_cm_send_request settings net registration_ids data
            cloud_type use_fcm_notifications kwargs registry)
      | none =>
        bulkWrapSingle (_cm_send_request settings net registration_ids data
          cloud_type use_fcm_notifications kwargs registry)
  else ⟨.error (.improperlyConfigured "cloud_type"), data, registry, [], []⟩

/-- A gateway that always answers with an all-success response; used to
state dispatch-level claims without interference from reconciliation. -/
def benignNet : Payload → CMResponse := fun _ => ⟨0, 0, []⟩

/-! ### Positional views of the reconciler's collections -/

/-- The registration ids marked for deactivation, paired positionally. -/
def deactListOf (rids : List String) (results : List CMResult) : List String :=
  (rids.zip results).filterMap fun p =>
    if errIsDeact p.2.error then some p.1 else none

/-- The `(old, new)` canonical-id pairs, paired positionally. -/
def migrListOf (rids : List String) (results : List CMResult) :
    List (String × String) :=
  (rids.zip results).filterMap fun p =>
    match p.2.registration_id with
    | some nid => if nid == "" then none else some (p.1, nid)
    | none => none

/-- Whether some result carries a non-empty error code that is not one of
the two deactivation codes. -/
def throwErrorOf (results : List CMResult) : Bool :=
  results.any fun r => truthyStr r.error && !errIsDeact r.error

/-- Structural well-formedness of a gateway response: `failure` and
`canonical_ids` are the counts of errored results and of results carrying a
canonical registration id, as the gateway defines them. -/
def respWellFormed (resp : CMResponse) : Prop :=
  resp.failure = resp.results.countP (fun r => truthyStr r.error) ∧
  resp.canonical_ids = resp.results.countP (fun r => truthyStr r.registration_id)

instance : DecidablePred respWellFormed := fun resp => by
  unfold respWellFormed; infer_instance

/-- How many times a registration id is targeted by a deactivation across
a trace of registry calls. -/
def deactCount (id : String) (calls : List RegistryCall) : Nat :=
  (calls.map fun c =>
    match c with
    | .deactivateBulk ids _ => ids.count id
    | .canonicalMigrate _ _ _ => 0).sum

/-- How many migration calls move away from the given registration id. -/
def migrFromCount (id : String) (calls : List RegistryCall) : Nat :=
  calls.countP fun c =>
    match c with
    | .canonicalMigrate _ old _ => old == id
    | .deactivateBulk _ _ => false

/-- How many migration calls move `old` to `new` for the given cloud type. -/
def migrPairCount (old new ct : String) (calls : List RegistryCall) : Nat :=
  calls.count (.canonicalMigrate new old ct)

/-- Apply the canonical-id migrations for the listed `(old, new)` pairs in
order. -/
def applyMigrList (ct : String) (l : List (String × String))
    (reg : List DeviceRecord) : List DeviceRecord :=
  l.foldl (fun r p => _gcm_handle_canonical_id p.2 p.1 ct r) reg

/-- The registry calls `_cm_handle_response` issues once the loop has
classified every position. -/
def expectedCalls (rids : List String) (results : List CMResult)
    (ct : String) : List RegistryCall :=
  (if (deactListOf rids results).isEmpty then []
   else [.deactivateBulk (deactListOf rids results) ct]) ++
  (migrListOf rids results).map fun p => .canonicalMigrate p.2 p.1 ct

/-- The notification sub-dict of a payload (empty when absent). -/
def notifOf (p : Payload) : Dict := p.notification.getD []

/-- The truthy value of `registration_id` in a result, if any. -/
def truthyRegIdOf (r : CMResult) : Option String :=
  match r.registration_id with
  | some s => if s == "" then none else some s
  | none => none

/-- Default entry used with `List.getD` in statements about results. -/
def dfltResult : CMResult := ⟨none, none⟩

/-- Default entry used with `List.getD` in statements about the registry. -/
def dfltDevice : DeviceRecord := ⟨"", "", false⟩

/-! ### Dictionary lemmas -/

theorem dget_dset_self (d : Dict) (k : String) (v : JVal) :
    dget (dset d k v) k = some v := by
  induction d with
  | nil => simp [dset, dget]
  | cons p t ih =>
    by_cases h : p.1 = k
    · simp [dset, h, dget]
    · simp only [dset]
      rw [if_neg (by simpa using h)]
      simpa [dget, h] using ih

theorem dget_dset_ne (d : Dict) (k k' : String) (v : JVal) (h : k' ≠ k) :
    dget (dset d k v) k' = dget d k' := by
  induction d with
  | nil => simp [dset, dget, Ne.symm h]
  | cons p t ih =>
    by_cases hp : p.1 = k
    · simp [dset, hp, dget, Ne.symm h]
    · simp only [dset]
      rw [if_neg (by simpa using hp)]
      by_cases hp' : p.1 = k'
      · simp [dget, hp']
      · simp only [dget]
        rw [if_neg (by simpa using hp'), if_neg (by simpa using hp')]
        exact ih

theorem dget_dremove_self (d : Dict) (k : String) :
    dget (dremove d k) k = none := by
  induction d with
  | nil => simp [dremove, dget]
  | cons p t ih =>
    rcases p with ⟨k', v⟩
    by_cases h : k' = k
    · simpa [dremove, h] using ih
    · simp only [dremove]
      rw [if_neg (by simpa using h)]
      simp only [dget]
      rw [if_neg (by simpa using h)]
      exact ih

theorem dget_dremove_ne (d : Dict) (k k' : String) (h : k' ≠ k) :
    dget (dremove d k) k' = dget d k' := by
  induction d with
  | nil => simp [dremove, dget]
  | cons p t ih =>
    rcases p with ⟨kh, v⟩
    by_cases hp : kh = k
    · simp only [dremove]
      rw [if_pos (by simpa using hp)]
      simp only [dget]
      rw [if_neg (by simp [hp, Ne.symm h])]
      exact ih
    · simp only [dremove]
      rw [if_neg (by simpa using hp)]
      by_cases hp' : kh = k'
      · simp [dget, hp']
      · simp only [dget]
        rw [if_neg (by simpa using hp'), if_neg (by simpa using hp')]
        exact ih

theorem dget_nil_eq_none (k : String) : dget [] k = none := rfl

theorem ne_nil_of_dget_some (d : Dict) (k : String) (v : JVal)
    (h : dget d k = some v) : d ≠ [] := by
  intro he; subst he; simp [dget] at h

theorem truthyAt_dremove (d : Dict) (k k' : String) :
    truthyAt (dremove d k) k' = if k' = k then false else truthyAt d k' := by
  by_cases h : k' = k
  · simp [truthyAt, h, dget_dremove_self]
  · simp [truthyAt, h, dget_dremove_ne d k k' h]

/-! ### Lemmas about the notification extraction loop -/

theorem dget_condSet_ne (np : Dict) (k k' : String) (o : Option JVal)
    (h : k' ≠ k) : dget (condSet np k o) k' = dget np k' := by
  rcases o with _ | v
  · rfl
  · by_cases t : v.truthy <;> simp [condSet, t, dget_dset_ne np k k' v h]

theorem dget_condSet_truthy (np : Dict) (k : String) (v : JVal)
    (hv : v.truthy = true) : dget (condSet np k (some v)) k = some v := by
  simp [condSet, hv, dget_dset_self]

theorem condSet_skip (np : Dict) (k : String) (o : Option JVal)
    (h : ∀ v, o = some v → v.truthy = false) : condSet np k o = np := by
  rcases o with _ | v
  · rfl
  · simp [condSet, h v rfl]

theorem extract_not_mem (keys : List String) :
    ∀ (np d kw : Dict) (k : String), k ∉ keys →
      dget (extractNotificationKeys keys np d kw).1 k = dget np k := by
  induction keys with
  | nil => intro np d kw k _; rfl
  | cons h rest ih =>
    intro np d kw k hk
    have hkh : k ≠ h := fun e => hk (e ▸ List.mem_cons_self h rest)
    have hkr : k ∉ rest := fun m => hk (List.mem_cons_of_mem h m)
    show dget (extractNotificationKeys rest
      (condSet (condSet np h (dget d h)) h (dget kw h))
      (dremove d h) (dremove kw h)).1 k = dget np k
    rw [ih _ _ _ _ hkr, dget_condSet_ne _ _ _ _ hkh, dget_condSet_ne _ _ _ _ hkh]

theorem extract_kwargs_wins (keys : List String) :
    ∀ (np d kw : Dict) (k : String) (v : JVal), keys.Nodup → k ∈ keys →
      dget kw k = some v → v.truthy = true →
      dget (extractNotificationKeys keys np d kw).1 k = some v := by
  induction keys with
  | nil => intro np d kw k v _ hk; simp at hk
  | cons h rest ih =>
    intro np d kw k v hnd hk hv ht
    rcases List.mem_cons.mp hk with rfl | hk'
    · have hkr : k ∉ rest := (List.nodup_cons.mp hnd).1
      show dget (extractNotificationKeys rest
        (condSet (condSet np k (dget d k)) k (dget kw k))
        (dremove d k) (dremove kw k)).1 k = some v
      rw [extract_not_mem rest _ _ _ _ hkr, hv,
        dget_condSet_truthy _ _ _ ht]
    · have hkh : k ≠ h := by
        intro e; subst e; exact (List.nodup_cons.mp hnd).1 hk'
      show dget (extractNotificationKeys rest
        (condSet (condSet np h (dget d h)) h (dget kw h))
        (dremove d h) (dremove kw h)).1 k = some v
      exact ih _ _ _ _ _ (List.nodup_cons.mp hnd).2 hk'
        (by rw [dget_dremove_ne _ _ _ hkh]; exact hv) ht

theorem extract_data_used (keys : List String) :
    ∀ (np d kw : Dict) (k : String) (w : JVal), keys.Nodup → k ∈ keys →
      truthyAt kw k = false → dget d k = some w → w.truthy = true →
      dget (extractNotificationKeys keys np d kw).1 k = some w := by
  induction keys with
  | nil => intro np d kw k w _ hk; simp at hk
  | cons h rest ih =>
    intro np d kw k w hnd hk hkw hd ht
    rcases List.mem_cons.mp hk with rfl | hk'
    · have hkr : k ∉ rest := (List.nodup_cons.mp hnd).1
      show dget (extractNotificationKeys rest
        (condSet (condSet np k (dget d k)) k (dget kw k))
        (dremove d k) (dremove kw k)).1 k = some w
      rw [extract_not_mem rest _ _ _ _ hkr]
      rw [condSet_skip _ _ (dget kw k) (by
        intro u hu
        unfold truthyAt at hkw
        rw [hu] at hkw
        exact hkw)]
      rw [hd, dget_condSet_truthy _ _ _ ht]
    · have hkh : k ≠ h := by
        intro e; subst e; exact (List.nodup_cons.mp hnd).1 hk'
      show dget (extractNotificationKeys rest
        (condSet (condSet np h (dget d h)) h (dget kw h))
        (dremove d h) (dremove kw h)).1 k = some w
      refine ih _ _ _ _ _ (List.nodup_cons.mp hnd).2 hk' ?_ ?_ ht
      · rw [truthyAt_dremove, if_neg hkh]; exact hkw
      · rw [dget_dremove_ne _ _ _ hkh]; exact hd

theorem extract_data_get (keys : List String) :
    ∀ (np d kw : Dict) (k : String),
      dget (extractNotificationKeys keys np d kw).2.1 k =
        if k ∈ keys then none else dget d k := by
  induction keys with
  | nil => intro np d kw k; simp [extractNotificationKeys]
  | cons h rest ih =>
    intro np d kw k
    show dget (extractNotificationKeys rest
      (condSet (condSet np h (dget d h)) h (dget kw h))
      (dremove d h) (dremove kw h)).2.1 k = _
    rw [ih]
    by_cases hk : k ∈ rest
    · simp [hk]
    · by_cases hkh : k = h
      · subst hkh
        simp [hk, dget_dremove_self]
      · simp [hk, hkh, dget_dremove_ne _ _ _ hkh]

theorem extract_np_unchanged (keys : List String) :
    ∀ (np d kw : Dict),
      (∀ k ∈ keys, truthyAt d k = false) →
      (∀ k ∈ keys, truthyAt kw k = false) →
      (extractNotificationKeys keys np d kw).1 = np := by
  induction keys with
  | nil => intro np d kw _ _; rfl
  | cons h rest ih =>
    intro np d kw hd hkw
    show (extractNotificationKeys rest
      (condSet (condSet np h (dget d h)) h (dget kw h))
      (dremove d h) (dremove kw h)).1 = np
    rw [condSet_skip _ _ (dget kw h) (by
      intro u hu
      have := hkw h (List.mem_cons_self h rest)
      unfold truthyAt at this
      rw [hu] at this
      exact this)]
    rw [condSet_skip _ _ (dget d h) (by
      intro u hu
      have := hd h (List.mem_cons_self h rest)
      unfold truthyAt at this
      rw [hu] at this
      exact this)]
    refine ih _ _ _ ?_ ?_
    · intro k hk
      rw [truthyAt_dremove]
      by_cases e : k = h
      · simp [e]
      · rw [if_neg e]; exact hd k (List.mem_cons_of_mem h hk)
    · intro k hk
      rw [truthyAt_dremove]
      by_cases e : k = h
      · simp [e]
      · rw [if_neg e]; exact hkw k (List.mem_cons_of_mem h hk)

/-! ### Lemmas about the payload builder -/

theorem build_fcm_eq (rids : Option (List String)) (data kwargs : Dict) :
    build_cm_payload rids data "FCM" true kwargs =
      (let pl_rids : Option (List String) :=
        match rids with
        | some l => if l.isEmpty then none else some l
        | none => none
      let md := match dget data "message" with
        | some v => ([("body", v)], dremove data "message")
        | none => (([] : Dict), data)
      let e := extractNotificationKeys FCM_NOTIFICATIONS_PAYLOAD_KEYS md.1 md.2 kwargs
      ({ registration_ids := pl_rids
         notification := if e.1.isEmpty then none else some e.1
         data := if e.2.1.isEmpty then none else some e.2.1
         extra := e.2.2.filter fun p =>
           p.2.truthy &&
             (FCM_TARGETS_KEYS.contains p.1 || FCM_OPTIONS_KEYS.contains p.1) },
       e.2.1, e.2.2)) := rfl

theorem notif_get_of (nl : Dict) (k : String) (v : JVal)
    (h : dget nl k = some v) :
    dget ((if nl.isEmpty then none else (some nl : Option Dict)).getD []) k
      = some v := by
  rcases nl with _ | ⟨p, t⟩
  · simp [dget] at h
  · simpa using h

theorem build_data_stripped (rids : Option (List String)) (d kw : Dict)
    (k : String) (hk : k ∈ "message" :: FCM_NOTIFICATIONS_PAYLOAD_KEYS) :
    dget (build_cm_payload rids d "FCM" true kw).2.1 k = none := by
  rw [build_fcm_eq]
  rcases hm : dget d "message" with _ | v
  · simp only [hm, extract_data_get]
    rcases List.mem_cons.mp hk with rfl | hk'
    · rw [if_neg (by decide : ¬ ("message" ∈ FCM_NOTIFICATIONS_PAYLOAD_KEYS))]
      exact hm
    · rw [if_pos hk']
  · simp only [hm, extract_data_get]
    rcases List.mem_cons.mp hk with rfl | hk'
    · rw [if_neg (by decide : ¬ ("message" ∈ FCM_NOTIFICATIONS_PAYLOAD_KEYS))]
      exact dget_dremove_self d "message"
    · rw [if_pos hk']

theorem build_notification_none (rids : Option (List String)) (d kw : Dict)
    (hd : ∀ k ∈ "message" :: FCM_NOTIFICATIONS_PAYLOAD_KEYS, dget d k = none)
    (hkw : ∀ k ∈ FCM_NOTIFICATIONS_PAYLOAD_KEYS, truthyAt kw k = false) :
    (build_cm_payload rids d "FCM" true kw).1.notification = none := by
  rw [build_fcm_eq]
  have hm : dget d "message" = none := hd "message" (List.mem_cons_self _ _)
  simp only [hm]
  rw [extract_np_unchanged _ _ _ _
    (fun k hk => by
      unfold truthyAt
      rw [hd k (List.mem_cons_of_mem _ hk)])
    hkw]
  rfl

/-! ### Lemmas about chunking -/

theorem chunks_nil (n : Nat) : _chunks ([] : List α) n = [] := by
  rw [_chunks]
  simp

theorem chunks_cons (l : List α) (n : Nat) (hl : l ≠ []) (hn : n ≠ 0) :
    _chunks l n = l.take n :: _chunks (l.drop n) n := by
  rw [_chunks]
  rw [if_neg (by simp [hl, hn])]

theorem chunks_ne_nil (l : List α) (n : Nat) (hl : l ≠ []) (hn : n ≠ 0) :
    _chunks l n ≠ [] := by
  rw [chunks_cons l n hl hn]
  simp

theorem chunks_join_bounded (n : Nat) (hn : 0 < n) :
    ∀ (N : Nat) (l : List α), l.length ≤ N → (_chunks l n).flatten = l := by
  intro N
  induction N with
  | zero =>
    intro l hl
    have : l = [] := List.eq_nil_of_length_eq_zero (Nat.le_zero.mp hl)
    subst this
    rw [chunks_nil]
    rfl
  | succ N ih =>
    intro l hl
    by_cases he : l = []
    · subst he; rw [chunks_nil]; rfl
    · rw [chunks_cons l n he (Nat.pos_iff_ne_zero.mp hn)]
      rw [List.flatten_cons, ih (l.drop n) (by
        rw [List.length_drop]
        omega)]
      exact List.take_append_drop n l

theorem chunks_length_bounded (n : Nat) (hn : 0 < n) :
    ∀ (N : Nat) (l : List α), l.length ≤ N →
      (_chunks l n).length = (l.length + n - 1) / n := by
  intro N
  induction N with
  | zero =>
    intro l hl
    have : l = [] := List.eq_nil_of_length_eq_zero (Nat.le_zero.mp hl)
    subst this
    rw [chunks_nil]
    simp [Nat.div_eq_of_lt (by omega : n - 1 < n)]
  | succ N ih =>
    intro l hl
    by_cases he : l = []
    · subst he
      rw [chunks_nil]
      simp [Nat.div_eq_of_lt (by omega : n - 1 < n)]
    · have hL : 0 < l.length := List.length_pos.mpr he
      rw [chunks_cons l n he (Nat.pos_iff_ne_zero.mp hn)]
      by_cases hLn : l.length ≤ n
      · rw [List.drop_eq_nil_of_le hLn, chunks_nil]
        have : (1 : Nat) * n ≤ l.length + n - 1 := by omega
        have h2 : l.length + n - 1 < (1 + 1) * n := by omega
        simp [Nat.div_eq_of_lt_le this h2]
      · rw [List.length_cons, ih (l.drop n) (by rw [List.length_drop]; omega)]
        rw [List.length_drop]
        have e1 : l.length - n + n - 1 = l.length - 1 := by omega
        have e2 : l.length + n - 1 = l.length - 1 + n := by omega
        rw [e1, e2, Nat.add_div_right _ hn]

theorem chunks_sizes_bounded (n : Nat) (hn : 0 < n) :
    ∀ (N : Nat) (l : List α), l.length ≤ N →
      ∀ c ∈ _chunks l n, c.length ≤ n ∧ c ≠ [] := by
  intro N
  induction N with
  | zero =>
    intro l hl
    have : l = [] := List.eq_nil_of_length_eq_zero (Nat.le_zero.mp hl)
    subst this
    rw [chunks_nil]
    intro c hc
    simp at hc
  | succ N ih =>
    intro l hl
    by_cases he : l = []
    · subst he
      rw [chunks_nil]
      intro c hc
      simp at hc
    · rw [chunks_cons l n he (Nat.pos_iff_ne_zero.mp hn)]
      intro c hc
      rcases List.mem_cons.mp hc with rfl | hc'
      · constructor
        · rw [List.length_take]; omega
        · rw [Ne, List.take_eq_nil_iff]
          push_neg
          exact ⟨Nat.pos_iff_ne_zero.mp hn, he⟩
      · exact ih (l.drop n) (by rw [List.length_drop]; omega) c hc'

theorem chunks_last_bounded (n : Nat) (hn : 0 < n) :
    ∀ (N : Nat) (l : List α), 0 < l.length → l.length ≤ N →
      ∀ last, (_chunks l n).getLast? = some last →
        last.length = if l.length % n = 0 then n else l.length % n := by
  intro N
  induction N with
  | zero => intro l hL hl; omega
  | succ N ih =>
    intro l hL hl last hlast
    have he : l ≠ [] := List.length_pos.mp hL
    rw [chunks_cons l n he (Nat.pos_iff_ne_zero.mp hn)] at hlast
    by_cases hLn : l.length ≤ n
    · rw [List.drop_eq_nil_of_le hLn, chunks_nil, List.getLast?_singleton] at hlast
      have hlen : last.length = l.length := by
        rw [← Option.some_inj.mp hlast]
        rw [List.length_take]
        omega
      by_cases heq : l.length = n
      · rw [if_pos (by rw [heq]; exact Nat.mod_self n), hlen, heq]
      · have hlt : l.length < n := by omega
        rw [if_neg (by rw [Nat.mod_eq_of_lt hlt]; omega), Nat.mod_eq_of_lt hlt]
        exact hlen
    · have hdne : l.drop n ≠ [] := by
        rw [Ne, ← List.length_eq_zero, List.length_drop]
        omega
      have hcne : _chunks (l.drop n) n ≠ [] :=
        chunks_ne_nil _ _ hdne (Nat.pos_iff_ne_zero.mp hn)
      rcases hc : _chunks (l.drop n) n with _ | ⟨c0, cs⟩
      · exact absurd hc hcne
      · rw [hc, List.getLast?_cons_cons] at hlast
        have := ih (l.drop n) (by rw [List.length_drop]; omega)
          (by rw [List.length_drop]; omega) last (by rw [hc]; exact hlast)
        rw [List.length_drop] at this
        rw [Nat.mod_eq_sub_mod (by omega : l.length ≥ n)]
        exact this

/-! ### Dispatch under the benign gateway -/

theorem build_registration_ids (rids : Option (List String)) (data : Dict)
    (ct : String) (ufn : Bool) (kwargs : Dict) :
    (build_cm_payload rids data ct ufn kwargs).1.registration_ids =
      match rids with
      | some l => if l.isEmpty then none else some l
      | none => none := by
  rcases rids with _ | l <;>
  · unfold build_cm_payload
    dsimp only
    by_cases hct : ((ct == "FCM") && ufn) = true
    · rw [if_pos hct]
    · rw [if_neg hct]

theorem cm_send_request_fcm_benign (settings : Settings)
    (hkey : truthyStr settings.FCM_API_KEY = true) (rids : Option (List String))
    (data : Dict) (ufn : Bool) (kwargs : Dict) (reg : List DeviceRecord) :
    _cm_send_request settings benignNet rids data "FCM" ufn kwargs reg =
      ⟨.ok ⟨0, 0, []⟩, (build_cm_payload rids data "FCM" ufn kwargs).2.1, reg, [],
       [(build_cm_payload rids data "FCM" ufn kwargs).1]⟩ := by
  have e1 : (("FCM" : String) == "GCM") = false := by decide
  have e2 : (("FCM" : String) == "FCM") = true := by decide
  simp [_cm_send_request, _fcm_send, benignNet, _cm_handle_response, e1, e2, hkey]

theorem sendChunksLoop_benign_rids (settings : Settings)
    (hkey : truthyStr settings.FCM_API_KEY = true) (ufn : Bool) (kwargs : Dict) :
    ∀ (chunks : List (List String)) (d : Dict) (reg : List DeviceRecord)
      (acc : List CMResponse) (calls : List RegistryCall) (reqs : List Payload),
      (∀ c ∈ chunks, c ≠ []) →
      ∃ resps dfinal reqsNew,
        sendChunksLoop settings benignNet "FCM" ufn kwargs chunks d reg acc calls
            reqs = (.ok resps, dfinal, reg, calls, reqs ++ reqsNew) ∧
        reqsNew.map (fun p => p.registration_ids) = chunks.map some := by
  intro chunks
  induction chunks with
  | nil =>
    intro d reg acc calls reqs _
    exact ⟨acc, d, [], by simp [sendChunksLoop], by simp⟩
  | cons c cs ih =>
    intro d reg acc calls reqs hne
    have hc : c ≠ [] := hne c (List.mem_cons_self _ _)
    obtain ⟨resps, dfinal, reqsNew, heq, hmap⟩ :=
      ih (build_cm_payload (some c) d "FCM" ufn kwargs).2.1 reg
        (acc ++ [⟨0, 0, []⟩]) calls
        (reqs ++ [(build_cm_payload (some c) d "FCM" ufn kwargs).1])
        (fun c' h => hne c' (List.mem_cons_of_mem _ h))
    refine ⟨resps, dfinal,
      (build_cm_payload (some c) d "FCM" ufn kwargs).1 :: reqsNew, ?_, ?_⟩
    · simp only [sendChunksLoop]
      rw [cm_send_request_fcm_benign settings hkey (some c) d ufn kwargs reg]
      dsimp only
      simp only [List.append_nil]
      rw [heq]
      rw [List.append_assoc, List.singleton_append]
    · simp only [List.map_cons, hmap, build_registration_ids]
      rw [if_neg (by simp [List.isEmpty_iff, hc])]

/-! ### Claim C4 -/

/-- C4: for a recipient list of length `N` and a cap `C` with `0 < C < N`,
bulk dispatch sends exactly the chunks `_chunks l C` (one network request
per chunk, in order), there are `ceil(N/C)` chunks, each of size at most
`C` and non-empty, their concatenation in order is the original list, and
the last chunk has size `N mod C` (or `C` when `N mod C = 0`). -/
theorem bulk_dispatch_chunking (l : List String) (C : Nat) (settings : Settings)
    (ufn : Bool) (data kwargs : Dict) (reg : List DeviceRecord)
    (h0 : 0 < C) (hNC : C < l.length)
    (hkey : truthyStr settings.FCM_API_KEY = true)
    (hmax : settings.FCM_MAX_RECIPIENTS = C) :
    (send_bulk_message settings benignNet (some l) data "FCM" ufn kwargs
        reg).requests.map (fun p => p.registration_ids)
      = (_chunks l C).map some ∧
    (_chunks l C).length = (l.length + C - 1) / C ∧
    (_chunks l C).flatten = l ∧
    (∀ c ∈ _chunks l C, c.length ≤ C ∧ c ≠ []) ∧
    (∀ last, (_chunks l C).getLast? = some last →
      last.length = if l.length % C = 0 then C else l.length % C) ∧
    _chunks l C ≠ [] := by
  have hlp : 0 < l.length := by omega
  have hln : l ≠ [] := List.length_pos.mp hlp
  refine ⟨?_, chunks_length_bounded C h0 l.length l (Nat.le_refl _),
    chunks_join_bounded C h0 l.length l (Nat.le_refl _),
    chunks_sizes_bounded C h0 l.length l (Nat.le_refl _),
    chunks_last_bounded C h0 l.length l hlp (Nat.le_refl _),
    chunks_ne_nil l C hln (by omega)⟩
  obtain ⟨resps, dfinal, reqsNew, heq, hmap⟩ :=
    sendChunksLoop_benign_rids settings hkey ufn kwargs (_chunks l C) data reg
      [] [] [] (fun c hc => (chunks_sizes_bounded C h0 l.length l (Nat.le_refl _) c hc).2)
  unfold send_bulk_message
  rw [if_pos (by decide :
    ((("FCM" : String) == "GCM") || (("FCM" : String) == "FCM")) = true)]
  dsimp only
  rw [if_neg (by simp : ¬ ((some l).isNone && !topicInTo kwargs) = true)]
  rw [if_pos (by
    simp only [Bool.and_eq_true, Bool.not_eq_true, decide_eq_true_eq]
    refine ⟨by simp [List.isEmpty_iff, hln], ?_⟩
    rw [if_neg (by decide : ¬ ((("FCM" : String) == "GCM") = true)), hmax]
    exact hNC)]
  rw [if_neg (by decide : ¬ ((("FCM" : String) == "GCM") = true)), hmax]
  rw [heq]
  simpa using hmap

/-- C4, witness: the chunking facts evaluated for a three-element list with
cap 2. -/
theorem bulk_dispatch_chunking_witness :
    (send_bulk_message ⟨none, some "k", 1000, 2⟩ benignNet
        (some ["a", "b", "c"]) [] "FCM" true [] []).requests.map
        (fun p => p.registration_ids)
      = (_chunks ["a", "b", "c"] 2).map some ∧
    (_chunks ["a", "b", "c"] 2).length = (3 + 2 - 1) / 2 ∧
    (_chunks ["a", "b", "c"] 2).flatten = ["a", "b", "c"] ∧
    (∀ c ∈ _chunks ["a", "b", "c"] 2, c.length ≤ 2 ∧ c ≠ []) ∧
    (∀ last, (_chunks ["a", "b", "c"] 2).getLast? = some last →
      last.length = if 3 % 2 = 0 then 2 else 3 % 2) ∧
    _chunks ["a", "b", "c"] 2 ≠ [] :=
  bulk_dispatch_chunking ["a", "b", "c"] 2 ⟨none, some "k", 1000, 2⟩ true [] []
    [] (by decide) (by decide) (by decide) rfl

end GCM

namespace GCM

/-! ### Claim C1 -/

/-- C1, counterexample: with the notification-display field `title` truthy
in both `data` (value `"A"`) and the keyword options (value `"B"`), the
FCM split-notification build places the options value `"B"` — not the data
value `"A"` — under the payload's notification key, refuting the claimed
data-over-options precedence. -/
theorem fcm_notification_data_precedence_counterexample :
    dget (notifOf (build_cm_payload (some ["r"])
        [("title", JVal.vstr "A")] "FCM" true [("title", JVal.vstr "B")]).1)
      "title" = some (JVal.vstr "B") ∧ JVal.vstr "B" ≠ JVal.vstr "A" :=
  ⟨rfl, by decide⟩

/-- C1 (amended): for every FCM build with the split-notification flag
enabled and every notification-display field, a truthy value for the field
in the keyword options is the one placed under the payload's notification
key; the value in `data` is used only when the options lack the field or
hold a falsy value there. -/
theorem fcm_notification_field_precedence (rids : Option (List String))
    (data kwargs : Dict) (k : String)
    (hk : k ∈ FCM_NOTIFICATIONS_PAYLOAD_KEYS) :
    (∀ v, dget kwargs k = some v → v.truthy = true →
      dget (notifOf (build_cm_payload rids data "FCM" true kwargs).1) k
        = some v) ∧
    (truthyAt kwargs k = false →
      ∀ w, dget data k = some w → w.truthy = true →
        dget (notifOf (build_cm_payload rids data "FCM" true kwargs).1) k
          = some w) := by
  have hnd : FCM_NOTIFICATIONS_PAYLOAD_KEYS.Nodup := by decide
  have hkm : k ≠ "message" := by
    intro e; subst e; revert hk; decide
  constructor
  · intro v hv ht
    rw [build_fcm_eq]
    rcases hm : dget data "message" with _ | mv <;>
      · simp only [hm, notifOf]
        exact notif_get_of _ _ _ (extract_kwargs_wins _ _ _ _ _ _ hnd hk hv ht)
  · intro hkw w hw ht
    rw [build_fcm_eq]
    rcases hm : dget data "message" with _ | mv
    · simp only [hm, notifOf]
      exact notif_get_of _ _ _ (extract_data_used _ _ _ _ _ _ hnd hk hkw hw ht)
    · simp only [hm, notifOf]
      refine notif_get_of _ _ _ (extract_data_used _ _ _ _ _ _ hnd hk hkw ?_ ht)
      rw [dget_dremove_ne _ _ _ hkm]
      exact hw

/-! ### Helper for indexed statements -/

theorem getD_map_of_lt (l : List α) (f : α → α) (i : Nat) (hi : i < l.length)
    (dflt : α) : (l.map f).getD i dflt = f (l.getD i dflt) := by
  rw [List.getD_eq_getElem?_getD, List.getD_eq_getElem?_getD, List.getElem?_map,
    List.getElem?_eq_getElem hi]
  rfl

/-! ### Claim C10 -/

/-- C10: each transport adapter checks the configured credential for its
cloud type first; an absent (or empty) credential makes the send fail with
the configuration error, with an empty network-request trace — no network
request is attempted. -/
theorem transport_credential_check (settings : Settings)
    (net : Payload → CMResponse) (payload : Payload) :
    (truthyStr settings.GCM_API_KEY = false →
      _gcm_send settings net payload =
        (.error (.improperlyConfigured "GCM_API_KEY"), [])) ∧
    (truthyStr settings.FCM_API_KEY = false →
      _fcm_send settings net payload =
        (.error (.improperlyConfigured "FCM_API_KEY"), [])) := by
  constructor <;> intro h <;> simp [_gcm_send, _fcm_send, h]

/-- C10, witness: both adapters at a concrete credential-free
configuration. -/
theorem transport_credential_check_witness :
    (truthyStr (⟨none, some "", 1000, 1000⟩ : Settings).GCM_API_KEY = false ∧
      truthyStr (⟨none, some "", 1000, 1000⟩ : Settings).FCM_API_KEY = false) ∧
    _gcm_send ⟨none, some "", 1000, 1000⟩ benignNet ⟨none, none, none, []⟩ =
      (.error (.improperlyConfigured "GCM_API_KEY"), []) ∧
    _fcm_send ⟨none, some "", 1000, 1000⟩ benignNet ⟨none, none, none, []⟩ =
      (.error (.improperlyConfigured "FCM_API_KEY"), []) :=
  ⟨⟨rfl, rfl⟩,
    (transport_credential_check ⟨none, some "", 1000, 1000⟩ benignNet
      ⟨none, none, none, []⟩).1 rfl,
    (transport_credential_check ⟨none, some "", 1000, 1000⟩ benignNet
      ⟨none, none, none, []⟩).2 rfl⟩

/-! ### Claim C9 -/

/-- C9: calling the bulk entry point with a null recipient list and no
topic designated in the `to` option returns null, leaves the caller's data
and the registry untouched, issues no registry call and performs no network
call. -/
theorem null_addressing_short_circuit (settings : Settings)
    (net : Payload → CMResponse) (data kwargs : Dict) (ufn : Bool)
    (reg : List DeviceRecord) (ct : String)
    (hct : ct = "GCM" ∨ ct = "FCM") (hto : topicInTo kwargs = false) :
    send_bulk_message settings net none data ct ufn kwargs reg =
      ⟨.ok .nothing, data, reg, [], []⟩ := by
  rcases hct with rfl | rfl <;>
  · unfold send_bulk_message
    rw [if_pos (by decide)]
    dsimp only
    rw [if_pos (by simp [hto])]

/-- C9, witness: the short circuit at a concrete configuration, data dict
and options dict. -/
theorem null_addressing_short_circuit_witness :
    (("GCM" = "GCM" ∨ "GCM" = "FCM") ∧
      topicInTo [("priority", JVal.vstr "high")] = false) ∧
    send_bulk_message ⟨some "k", some "k", 1000, 1000⟩ benignNet none
        [("x", JVal.vstr "y")] "GCM" true [("priority", JVal.vstr "high")] []
      = ⟨.ok .nothing, [("x", JVal.vstr "y")], [], [], []⟩ :=
  ⟨⟨Or.inl rfl, rfl⟩,
    null_addressing_short_circuit ⟨some "k", some "k", 1000, 1000⟩ benignNet
      [("x", JVal.vstr "y")] [("priority", JVal.vstr "high")] true []
      "GCM" (Or.inl rfl) rfl⟩

/-! ### Claim C8 -/

/-- C8: a response whose `failure` and `canonical_ids` counts are both zero
(or absent, which parses as zero) is returned unchanged by the reconciler,
the registry is untouched and no registry call is issued. -/
theorem reconciler_noop_fast_path (rids : Option (List String))
    (results : List CMResult) (ct : String) (reg : List DeviceRecord) :
    _cm_handle_response rids ⟨0, 0, results⟩ ct reg =
      ⟨.ok ⟨0, 0, results⟩, reg, []⟩ := by
  unfold _cm_handle_response
  rw [if_neg (by simp)]

/-! ### Claim C2 -/

/-- C2: the reconciler does not guard positional pairing.  With an empty
`registrationIDs` list and a non-empty `results` array whose entry requires
pairing (here a `NotRegistered` error with `failure = 1`), the subscript
`registration_ids[index]` fails (Python raises `IndexError`), before any
registry call is issued.  The claimed guard is absent from the code. -/
theorem reconciler_empty_ids_index_failure :
    _cm_handle_response (some []) ⟨1, 0, [⟨some "NotRegistered", none⟩]⟩
      "GCM" [] = ⟨.error .indexError, [], []⟩ := rfl

/-! ### Claim C5 -/

/-- C5: for a canonical-id migration `(newID, oldID, cloudType)`, the
registry rows keyed by `oldID` and the cloud type are deactivated in place
(registration id unchanged) when an active row for `newID` and the cloud
type already exists, and otherwise have their registration id replaced by
`newID` with the active flag untouched; rows not keyed by `oldID` with that
cloud type are unchanged. -/
theorem canonical_id_precedence (newID oldID ct : String)
    (reg : List DeviceRecord) (i : Nat) (hi : i < reg.length) :
    (_gcm_handle_canonical_id newID oldID ct reg).length = reg.length ∧
    ((reg.getD i dfltDevice).registration_id = oldID ∧
      (reg.getD i dfltDevice).cloud_message_type = ct →
      (_gcm_handle_canonical_id newID oldID ct reg).getD i dfltDevice =
        (if activeNewExists newID ct reg then
          { reg.getD i dfltDevice with active := false }
        else
          { reg.getD i dfltDevice with registration_id := newID })) ∧
    (¬ ((reg.getD i dfltDevice).registration_id = oldID ∧
        (reg.getD i dfltDevice).cloud_message_type = ct) →
      (_gcm_handle_canonical_id newID oldID ct reg).getD i dfltDevice =
        reg.getD i dfltDevice) := by
  unfold _gcm_handle_canonical_id
  by_cases hex : activeNewExists newID ct reg
  · rw [if_pos hex]
    refine ⟨List.length_map _ _, ?_, ?_⟩
    · intro hmatch
      rw [if_pos hex, getD_map_of_lt _ _ _ hi]
      rw [if_pos (by
        simp only [Bool.and_eq_true, beq_iff_eq]
        exact hmatch)]
    · intro hmatch
      rw [getD_map_of_lt _ _ _ hi]
      rw [if_neg (by
        simp only [Bool.and_eq_true, beq_iff_eq]
        exact hmatch)]
  · rw [if_neg hex]
    refine ⟨List.length_map _ _, ?_, ?_⟩
    · intro hmatch
      rw [if_neg hex, getD_map_of_lt _ _ _ hi]
      rw [if_pos (by
        simp only [Bool.and_eq_true, beq_iff_eq]
        exact hmatch)]
    · intro hmatch
      rw [getD_map_of_lt _ _ _ hi]
      rw [if_neg (by
        simp only [Bool.and_eq_true, beq_iff_eq]
        exact hmatch)]

/-- C5, witness: both the deactivation branch (an active `new` row exists,
row 1 keyed by `old` is deactivated, not renamed) and the untouched row 0. -/
theorem canonical_id_precedence_witness :
    (1 < ([⟨"new", "GCM", true⟩, ⟨"old", "GCM", true⟩] :
        List DeviceRecord).length ∧
      (([⟨"new", "GCM", true⟩, ⟨"old", "GCM", true⟩] :
        List DeviceRecord).getD 1 dfltDevice).registration_id = "old" ∧
      (([⟨"new", "GCM", true⟩, ⟨"old", "GCM", true⟩] :
        List DeviceRecord).getD 1 dfltDevice).cloud_message_type = "GCM") ∧
    (_gcm_handle_canonical_id "new" "old" "GCM"
        [⟨"new", "GCM", true⟩, ⟨"old", "GCM", true⟩]).getD 1 dfltDevice =
      (if activeNewExists "new" "GCM"
          [⟨"new", "GCM", true⟩, ⟨"old", "GCM", true⟩] then
        { ([⟨"new", "GCM", true⟩, ⟨"old", "GCM", true⟩] :
            List DeviceRecord).getD 1 dfltDevice with active := false }
      else
        { ([⟨"new", "GCM", true⟩, ⟨"old", "GCM", true⟩] :
            List DeviceRecord).getD 1 dfltDevice with
              registration_id := "new" }) :=
  ⟨⟨by decide, rfl, rfl⟩,
    (canonical_id_precedence "new" "old" "GCM"
      [⟨"new", "GCM", true⟩, ⟨"old", "GCM", true⟩] 1 (by decide)).2.1
      ⟨rfl, rfl⟩⟩

/-- C1, witness: the amended precedence evaluated at a concrete input. -/
theorem fcm_notification_field_precedence_witness :
    ("title" ∈ FCM_NOTIFICATIONS_PAYLOAD_KEYS ∧
      dget [("title", JVal.vstr "B")] "title" = some (JVal.vstr "B") ∧
      (JVal.vstr "B").truthy = true) ∧
    dget (notifOf (build_cm_payload (some ["r"])
        [("title", JVal.vstr "A")] "FCM" true [("title", JVal.vstr "B")]).1)
      "title" = some (JVal.vstr "B") :=
  ⟨⟨by decide, rfl, rfl⟩,
    (fcm_notification_field_precedence (some ["r"])
      [("title", JVal.vstr "A")] [("title", JVal.vstr "B")] "title"
      (by decide)).1 (JVal.vstr "B") rfl rfl⟩

/-! ### Reconciler classification, positionally -/

theorem truthy_of_deact (e : Option String) (h : errIsDeact e = true) :
    truthyStr e = true := by
  rcases e with _ | s
  · simp [errIsDeact] at h
  · simp only [errIsDeact, Bool.or_eq_true, beq_iff_eq] at h
    rcases h with rfl | rfl <;> decide

theorem truthyStr_of_truthyRegIdOf (r : CMResult) (nid : String)
    (h : truthyRegIdOf r = some nid) : truthyStr r.registration_id = true := by
  rcases hr : r.registration_id with _ | s
  · simp [truthyRegIdOf, hr] at h
  · simp only [truthyRegIdOf, hr] at h
    by_cases hs : (s == "") = true
    · rw [if_pos hs] at h; cases h
    · simp only [truthyStr, hs]
      simp at hs
      simp [hs]

theorem deactListOf_cons (a : String) (rids : List String) (r : CMResult)
    (results : List CMResult) :
    deactListOf (a :: rids) (r :: results) =
      (if errIsDeact r.error then [a] else []) ++ deactListOf rids results := by
  simp only [deactListOf, List.zip_cons_cons, List.filterMap_cons]
  by_cases hd : errIsDeact r.error = true <;> simp [hd]

theorem migrListOf_cons (a : String) (rids : List String) (r : CMResult)
    (results : List CMResult) :
    migrListOf (a :: rids) (r :: results) =
      (match truthyRegIdOf r with
        | some nid => [(a, nid)]
        | none => []) ++ migrListOf rids results := by
  simp only [migrListOf, List.zip_cons_cons, List.filterMap_cons]
  rcases hr : r.registration_id with _ | nid
  · simp [truthyRegIdOf, hr]
  · by_cases hs : (nid == "") = true <;>
      simp [truthyRegIdOf, hr, hs]

theorem throwErrorOf_cons (r : CMResult) (results : List CMResult) :
    throwErrorOf (r :: results) =
      ((truthyStr r.error && !errIsDeact r.error) || throwErrorOf results) := by
  simp [throwErrorOf]

theorem collectLoop_cons (rids : Option (List String)) (i : Nat) (r : CMResult)
    (rest : List CMResult) (c : String) (hg : ridGet rids i = some c) :
    collectLoop rids i (r :: rest) =
      match collectLoop rids (i + 1) rest with
      | .error e => .error e
      | .ok (dl', ml', te') =>
        .ok ((if errIsDeact r.error then [c] else []) ++ dl',
             (match truthyRegIdOf r with
               | some nid => [(c, nid)]
               | none => []) ++ ml',
             ((truthyStr r.error && !errIsDeact r.error) || te')) := by
  by_cases hd : errIsDeact r.error = true
  · have ht : truthyStr r.error = true := truthy_of_deact _ hd
    rcases hr : r.registration_id with _ | nid
    · simp [collectLoop, ht, hd, hg, hr, truthyRegIdOf]
    · by_cases hs : (nid == "") = true <;>
        simp [collectLoop, ht, hd, hg, hr, hs, truthyRegIdOf]
  · by_cases ht : truthyStr r.error = true <;>
    · rcases hr : r.registration_id with _ | nid
      · simp [collectLoop, ht, hd, hg, hr, truthyRegIdOf]
      · by_cases hs : (nid == "") = true <;>
          simp [collectLoop, ht, hd, hg, hr, hs, truthyRegIdOf]

theorem collectLoop_eq_ok (results : List CMResult) :
    ∀ (pre cur : List String), cur.length = results.length →
      collectLoop (some (pre ++ cur)) pre.length results =
        .ok (deactListOf cur results, migrListOf cur results,
             throwErrorOf results) := by
  induction results with
  | nil =>
    intro pre cur _
    simp [collectLoop, deactListOf, migrListOf, throwErrorOf]
  | cons r rest ih =>
    intro pre cur hlen
    rcases cur with _ | ⟨c, cur'⟩
    · simp at hlen
    · have hg : ridGet (some (pre ++ c :: cur')) pre.length = some c := by
        simp only [ridGet, List.get?_eq_getElem?]
        rw [List.getElem?_append_right (Nat.le_refl _)]
        simp
      rw [collectLoop_cons _ _ _ _ _ hg]
      have e1 : pre ++ c :: cur' = (pre ++ [c]) ++ cur' := by simp
      have e2 : pre.length + 1 = (pre ++ [c]).length := by simp
      rw [e1, e2, ih (pre ++ [c]) cur' (by simpa using hlen)]
      rw [deactListOf_cons, migrListOf_cons, throwErrorOf_cons]

theorem collectLoop_run (rids : List String) (results : List CMResult)
    (hlen : rids.length = results.length) :
    collectLoop (some rids) 0 results =
      .ok (deactListOf rids results, migrListOf rids results,
           throwErrorOf results) := by
  have h := collectLoop_eq_ok results [] rids hlen
  simpa using h

/-! ### The reconciler's mutation path -/

theorem foldl_migr_split (ct : String) (l : List (String × String)) :
    ∀ (r0 : List DeviceRecord) (c0 : List RegistryCall),
      l.foldl (fun st p => (_gcm_handle_canonical_id p.2 p.1 ct st.1,
          st.2 ++ [RegistryCall.canonicalMigrate p.2 p.1 ct])) (r0, c0) =
        (applyMigrList ct l r0,
         c0 ++ l.map fun p => RegistryCall.canonicalMigrate p.2 p.1 ct) := by
  induction l with
  | nil => intro r0 c0; simp [applyMigrList]
  | cons p t ih =>
    intro r0 c0
    rw [List.foldl_cons, ih]
    simp [applyMigrList, List.append_assoc]

theorem gcmDeactivateBulk_nil (ct : String) (reg : List DeviceRecord) :
    gcmDeactivateBulk [] ct reg = reg := by
  simp [gcmDeactivateBulk]

theorem handle_response_run (rids : List String) (resp : CMResponse)
    (ct : String) (reg : List DeviceRecord)
    (hlen : rids.length = resp.results.length)
    (hrun : resp.failure ≠ 0 ∨ resp.canonical_ids ≠ 0) :
    _cm_handle_response (some rids) resp ct reg =
      ⟨if throwErrorOf resp.results then .error (.gcmError resp) else .ok resp,
       applyMigrList ct (migrListOf rids resp.results)
         (gcmDeactivateBulk (deactListOf rids resp.results) ct reg),
       expectedCalls rids resp.results ct⟩ := by
  unfold _cm_handle_response
  rw [if_pos hrun, collectLoop_run rids resp.results hlen]
  dsimp only
  by_cases hde : (deactListOf rids resp.results).isEmpty = true
  · rw [if_pos hde, foldl_migr_split]
    have hnil : deactListOf rids resp.results = [] := List.isEmpty_iff.mp hde
    by_cases hte : throwErrorOf resp.results = true
    · rw [if_pos hte]
      simp [expectedCalls, hde, hnil, gcmDeactivateBulk_nil, hte]
    · rw [if_neg hte]
      simp [expectedCalls, hde, hnil, gcmDeactivateBulk_nil, hte]
  · rw [if_neg hde, foldl_migr_split]
    by_cases hte : throwErrorOf resp.results = true
    · rw [if_pos hte]
      simp [expectedCalls, hde, hte]
    · rw [if_neg hte]
      simp [expectedCalls, hde, hte]

/-! ### Claim C6 -/

/-- C6: when some result carries a non-empty error code other than the two
deactivation codes, the reconciler still classifies every position, issues
the bulk deactivation and every canonical-id migration of the batch, and
only then fails with the gateway error carrying the full response: the
final registry equals the one obtained by applying the bulk deactivation
followed by all migrations in order. -/
theorem reconciler_error_after_mutation (rids : List String)
    (resp : CMResponse) (ct : String) (reg : List DeviceRecord)
    (hw : respWellFormed resp) (hlen : rids.length = resp.results.length)
    (hhard : throwErrorOf resp.results = true) :
    (_cm_handle_response (some rids) resp ct reg).result =
      .error (.gcmError resp) ∧
    (_cm_handle_response (some rids) resp ct reg).calls =
      expectedCalls rids resp.results ct ∧
    (_cm_handle_response (some rids) resp ct reg).registry =
      applyMigrList ct (migrListOf rids resp.results)
        (gcmDeactivateBulk (deactListOf rids resp.results) ct reg) := by
  have hrun : resp.failure ≠ 0 ∨ resp.canonical_ids ≠ 0 := by
    left
    rw [hw.1]
    obtain ⟨x, hx, hpx⟩ := List.any_eq_true.mp hhard
    have hx2 : truthyStr x.error = true := by
      simp only [Bool.and_eq_true] at hpx
      exact hpx.1
    have hpos : 0 < resp.results.countP (fun r => truthyStr r.error) :=
      List.countP_pos_iff.mpr ⟨x, hx, hx2⟩
    omega
  refine ⟨?_, ?_, ?_⟩ <;>
  · rw [handle_response_run rids resp ct reg hlen hrun]
    try simp [hhard]

/-- C6, witness: a batch with one success and one `Unavailable` hard error
still reports the gateway error while the (here empty) mutation set was
applied; hypotheses are discharged at the concrete response. -/
theorem reconciler_error_after_mutation_witness :
    (respWellFormed ⟨1, 0, [⟨none, none⟩, ⟨some "Unavailable", none⟩]⟩ ∧
      (["A", "B"] : List String).length =
        [CMResult.mk none none, ⟨some "Unavailable", none⟩].length ∧
      throwErrorOf [⟨none, none⟩, ⟨some "Unavailable", none⟩] = true) ∧
    (_cm_handle_response (some ["A", "B"])
        ⟨1, 0, [⟨none, none⟩, ⟨some "Unavailable", none⟩]⟩ "GCM"
        [⟨"B", "GCM", true⟩]).result =
      .error (.gcmError ⟨1, 0, [⟨none, none⟩, ⟨some "Unavailable", none⟩]⟩) ∧
    (_cm_handle_response (some ["A", "B"])
        ⟨1, 0, [⟨none, none⟩, ⟨some "Unavailable", none⟩]⟩ "GCM"
        [⟨"B", "GCM", true⟩]).calls =
      expectedCalls ["A", "B"] [⟨none, none⟩, ⟨some "Unavailable", none⟩]
        "GCM" ∧
    (_cm_handle_response (some ["A", "B"])
        ⟨1, 0, [⟨none, none⟩, ⟨some "Unavailable", none⟩]⟩ "GCM"
        [⟨"B", "GCM", true⟩]).registry =
      applyMigrList "GCM"
        (migrListOf ["A", "B"] [⟨none, none⟩, ⟨some "Unavailable", none⟩])
        (gcmDeactivateBulk
          (deactListOf ["A", "B"] [⟨none, none⟩, ⟨some "Unavailable", none⟩])
          "GCM" [⟨"B", "GCM", true⟩]) :=
  ⟨⟨by decide, by decide, by decide⟩,
    reconciler_error_after_mutation ["A", "B"]
      ⟨1, 0, [⟨none, none⟩, ⟨some "Unavailable", none⟩]⟩ "GCM"
      [⟨"B", "GCM", true⟩] (by decide) (by decide) (by decide)⟩

/-! ### Counting the reconciler's registry calls by position -/

theorem mem_deactListOf (rids : List String) (results : List CMResult)
    (x : String) (hx : x ∈ deactListOf rids results) : x ∈ rids := by
  obtain ⟨p, hp, he⟩ := List.mem_filterMap.mp hx
  rcases p with ⟨a, r⟩
  by_cases hd : errIsDeact r.error = true
  · rw [if_pos hd] at he
    obtain rfl : a = x := Option.some_inj.mp he
    exact (List.of_mem_zip hp).1
  · rw [if_neg hd] at he
    cases he

theorem mem_migrListOf (rids : List String) (results : List CMResult)
    (p : String × String) (hp : p ∈ migrListOf rids results) : p.1 ∈ rids := by
  obtain ⟨q, hq, he⟩ := List.mem_filterMap.mp hp
  rcases q with ⟨a, r⟩
  rcases hr : r.registration_id with _ | nid
  · rw [hr] at he; cases he
  · simp only [hr] at he
    by_cases hs : (nid == "") = true
    · rw [if_pos hs] at he; cases he
    · rw [if_neg hs] at he
      obtain rfl : (a, nid) = p := Option.some_inj.mp he
      exact (List.of_mem_zip hq).1

theorem deactListOf_count (rids : List String) :
    ∀ (results : List CMResult) (i : Nat), rids.length = results.length →
      rids.Nodup → i < rids.length →
      (deactListOf rids results).count (rids.getD i "") =
        if errIsDeact ((results.getD i dfltResult).error) then 1 else 0 := by
  induction rids with
  | nil => intro results i _ _ hi; exact absurd hi (by simp)
  | cons c cur ih =>
    intro results i hlen hnd hi
    rcases results with _ | ⟨r, rest⟩
    · simp at hlen
    · rw [deactListOf_cons]
      rcases i with _ | i
      · rw [List.getD_cons_zero, List.getD_cons_zero, List.count_append,
          List.count_eq_zero.mpr (fun hmem => (List.nodup_cons.mp hnd).1
            (mem_deactListOf cur rest c hmem))]
        by_cases hd : errIsDeact r.error = true
        · rw [if_pos hd, if_pos hd]; simp
        · rw [if_neg hd, if_neg hd]; simp
      · rw [List.getD_cons_succ, List.getD_cons_succ, List.count_append]
        have hi' : i < cur.length := by simpa using hi
        have hmem : cur.getD i "" ∈ cur := by
          rw [List.getD_eq_getElem?_getD, List.getElem?_eq_getElem hi']
          exact List.getElem_mem hi'
        have hcne : (if errIsDeact r.error then [c] else []).count
            (cur.getD i "") = 0 := by
          by_cases hd : errIsDeact r.error = true
          · rw [if_pos hd, List.count_eq_zero]
            intro hm
            rw [List.mem_singleton] at hm
            exact (List.nodup_cons.mp hnd).1 (hm ▸ hmem)
          · rw [if_neg hd]; rfl
        rw [hcne, ih rest i (by simpa using hlen) (List.nodup_cons.mp hnd).2 hi']
        rw [Nat.zero_add]

theorem migrListOf_countP_from (rids : List String) :
    ∀ (results : List CMResult) (i : Nat), rids.length = results.length →
      rids.Nodup → i < rids.length →
      (migrListOf rids results).countP (fun p => p.1 == rids.getD i "") =
        match truthyRegIdOf (results.getD i dfltResult) with
        | some _ => 1
        | none => 0 := by
  induction rids with
  | nil => intro results i _ _ hi; exact absurd hi (by simp)
  | cons c cur ih =>
    intro results i hlen hnd hi
    rcases results with _ | ⟨r, rest⟩
    · simp at hlen
    · rw [migrListOf_cons, List.countP_append]
      rcases i with _ | i
      · simp only [List.getD_cons_zero]
        have htail : (migrListOf cur rest).countP (fun p => p.1 == c) = 0 := by
          rw [List.countP_eq_zero]
          intro p hp
          simp only [beq_iff_eq]
          intro hpc
          exact (List.nodup_cons.mp hnd).1 (hpc ▸ mem_migrListOf cur rest p hp)
        rw [htail]
        rcases hreg : truthyRegIdOf r with _ | nid <;> simp [hreg]
      · simp only [List.getD_cons_succ]
        have hi' : i < cur.length := by simpa using hi
        have hmem : cur.getD i "" ∈ cur := by
          rw [List.getD_eq_getElem?_getD, List.getElem?_eq_getElem hi']
          exact List.getElem_mem hi'
        have hhead : (match truthyRegIdOf r with
            | some nid => [(c, nid)]
            | none => ([] : List (String × String))).countP
            (fun p : String × String => p.1 == cur.getD i "") = 0 := by
          rcases hreg : truthyRegIdOf r with _ | nid
          · rfl
          · rw [List.countP_eq_zero]
            intro p hp
            rw [List.mem_singleton] at hp
            subst hp
            simp only [beq_iff_eq]
            intro hpc
            refine (List.nodup_cons.mp hnd).1 ?_
            rw [hpc]
            exact hmem
        rw [hhead, ih rest i (by simpa using hlen)
          (List.nodup_cons.mp hnd).2 hi', Nat.zero_add]

theorem migrListOf_count_pair (rids : List String) :
    ∀ (results : List CMResult) (i : Nat) (nid : String),
      rids.length = results.length → rids.Nodup → i < rids.length →
      truthyRegIdOf (results.getD i dfltResult) = some nid →
      (migrListOf rids results).count (rids.getD i "", nid) = 1 := by
  induction rids with
  | nil => intro results i nid _ _ hi; exact absurd hi (by simp)
  | cons c cur ih =>
    intro results i nid hlen hnd hi hreg
    rcases results with _ | ⟨r, rest⟩
    · simp at hlen
    · rw [migrListOf_cons, List.count_append]
      rcases i with _ | i
      · simp only [List.getD_cons_zero] at hreg ⊢
        have htail : (migrListOf cur rest).count (c, nid) = 0 := by
          rw [List.count_eq_zero]
          intro hm
          exact (List.nodup_cons.mp hnd).1 (mem_migrListOf cur rest (c, nid) hm)
        rw [htail, hreg]
        simp
      · simp only [List.getD_cons_succ] at hreg ⊢
        have hi' : i < cur.length := by simpa using hi
        have hmem : cur.getD i "" ∈ cur := by
          rw [List.getD_eq_getElem?_getD, List.getElem?_eq_getElem hi']
          exact List.getElem_mem hi'
        have hhead : (match truthyRegIdOf r with
            | some m => [(c, m)]
            | none => ([] : List (String × String))).count
            (cur.getD i "", nid) = 0 := by
          rcases hr2 : truthyRegIdOf r with _ | m
          · rfl
          · rw [List.count_eq_zero]
            intro hm
            rw [List.mem_singleton] at hm
            have hfst : cur.getD i "" = c := congrArg Prod.fst hm
            refine (List.nodup_cons.mp hnd).1 ?_
            rw [← hfst]
            exact hmem
        rw [hhead, ih rest i nid (by simpa using hlen)
          (List.nodup_cons.mp hnd).2 hi' hreg, Nat.zero_add]

theorem deactCount_append (x : String) (a b : List RegistryCall) :
    deactCount x (a ++ b) = deactCount x a + deactCount x b := by
  simp [deactCount]

theorem deactCount_migr_calls (x ct : String) (l : List (String × String)) :
    deactCount x (l.map fun p => RegistryCall.canonicalMigrate p.2 p.1 ct)
      = 0 := by
  induction l with
  | nil => rfl
  | cons p t ih =>
    simp only [deactCount, List.map_cons, List.sum_cons] at ih ⊢
    simpa using ih

theorem deactCount_expectedCalls (rids : List String)
    (results : List CMResult) (ct x : String) :
    deactCount x (expectedCalls rids results ct) =
      (deactListOf rids results).count x := by
  unfold expectedCalls
  rw [deactCount_append, deactCount_migr_calls]
  by_cases hde : (deactListOf rids results).isEmpty = true
  · rw [if_pos hde, List.isEmpty_iff.mp hde]
    rfl
  · rw [if_neg hde]
    simp [deactCount]

theorem migrFromCount_expectedCalls (rids : List String)
    (results : List CMResult) (ct x : String) :
    migrFromCount x (expectedCalls rids results ct) =
      (migrListOf rids results).countP (fun p => p.1 == x) := by
  unfold expectedCalls migrFromCount
  rw [List.countP_append]
  have h1 : (if (deactListOf rids results).isEmpty then
        ([] : List RegistryCall)
      else [.deactivateBulk (deactListOf rids results) ct]).countP
      (fun c => match c with
        | .canonicalMigrate _ old _ => old == x
        | .deactivateBulk _ _ => false) = 0 := by
    by_cases hde : (deactListOf rids results).isEmpty = true <;>
      simp [hde, List.countP_cons]
  rw [h1, Nat.zero_add, List.countP_map]
  rfl

theorem migrPairCount_expectedCalls (rids : List String)
    (results : List CMResult) (ct x nid : String) :
    migrPairCount x nid ct (expectedCalls rids results ct) =
      (migrListOf rids results).count (x, nid) := by
  unfold expectedCalls migrPairCount
  rw [List.count_append]
  have h1 : (if (deactListOf rids results).isEmpty then
        ([] : List RegistryCall)
      else [.deactivateBulk (deactListOf rids results) ct]).count
      (RegistryCall.canonicalMigrate nid x ct) = 0 := by
    by_cases hde : (deactListOf rids results).isEmpty = true <;>
      simp [hde, List.count_singleton]
  rw [h1, Nat.zero_add]
  induction migrListOf rids results with
  | nil => rfl
  | cons p t ih =>
    rcases p with ⟨a, b⟩
    simp only [List.map_cons, List.count_cons, ih]
    congr 1
    by_cases h : a = x ∧ b = nid
    · rw [h.1, h.2]
      simp
    · have h2 : (RegistryCall.canonicalMigrate b a ct ==
          RegistryCall.canonicalMigrate nid x ct) = false := by
        rw [beq_eq_false_iff_ne]
        intro he
        simp only [RegistryCall.canonicalMigrate.injEq] at he
        exact h ⟨he.2.1, he.1⟩
      have h3 : ((a, b) == (x, nid)) = false := by
        rw [beq_eq_false_iff_ne]
        intro he
        simp only [Prod.mk.injEq] at he
        exact h he
      rw [h2, h3]

/-! ### Claim C3 -/

/-- C3: with `registrationIDs` and `results` of equal length (and distinct
registration ids), the reconciler pairs result `i` with `registrationIDs[i]`:
a `NotRegistered`/`InvalidRegistration` error at position `i` yields exactly
one deactivation of the id at that position across the issued registry
calls, a truthy `registration_id` value yields exactly one migration from
the id at that position to that value, and a position with neither yields
no deactivation of and no migration from its id. -/
theorem reconciler_positional_pairing (rids : List String) (resp : CMResponse)
    (ct : String) (reg : List DeviceRecord) (i : Nat)
    (hw : respWellFormed resp) (hnd : rids.Nodup)
    (hlen : rids.length = resp.results.length) (hi : i < rids.length) :
    (errIsDeact ((resp.results.getD i dfltResult).error) = true →
      deactCount (rids.getD i "")
        (_cm_handle_response (some rids) resp ct reg).calls = 1) ∧
    (errIsDeact ((resp.results.getD i dfltResult).error) = false →
      deactCount (rids.getD i "")
        (_cm_handle_response (some rids) resp ct reg).calls = 0) ∧
    (∀ nid, truthyRegIdOf (resp.results.getD i dfltResult) = some nid →
      migrPairCount (rids.getD i "") nid ct
        (_cm_handle_response (some rids) resp ct reg).calls = 1 ∧
      migrFromCount (rids.getD i "")
        (_cm_handle_response (some rids) resp ct reg).calls = 1) ∧
    (truthyRegIdOf (resp.results.getD i dfltResult) = none →
      migrFromCount (rids.getD i "")
        (_cm_handle_response (some rids) resp ct reg).calls = 0) := by
  by_cases hrun : resp.failure ≠ 0 ∨ resp.canonical_ids ≠ 0
  · rw [handle_response_run rids resp ct reg hlen hrun]
    dsimp only
    refine ⟨?_, ?_, ?_, ?_⟩
    · intro h
      rw [deactCount_expectedCalls,
        deactListOf_count rids resp.results i hlen hnd hi, if_pos h]
    · intro h
      rw [deactCount_expectedCalls,
        deactListOf_count rids resp.results i hlen hnd hi, h]
      simp
    · intro nid hnid
      constructor
      · rw [migrPairCount_expectedCalls,
          migrListOf_count_pair rids resp.results i nid hlen hnd hi hnid]
      · rw [migrFromCount_expectedCalls,
          migrListOf_countP_from rids resp.results i hlen hnd hi, hnid]
    · intro h
      rw [migrFromCount_expectedCalls,
        migrListOf_countP_from rids resp.results i hlen hnd hi, h]
  · push_neg at hrun
    have hcalls : (_cm_handle_response (some rids) resp ct reg).calls = [] := by
      unfold _cm_handle_response
      rw [if_neg (by simp [hrun.1, hrun.2])]
    have hi2 : i < resp.results.length := hlen ▸ hi
    have hmem : resp.results.getD i dfltResult ∈ resp.results := by
      rw [List.getD_eq_getElem?_getD, List.getElem?_eq_getElem hi2]
      exact List.getElem_mem hi2
    refine ⟨?_, ?_, ?_, ?_⟩
    · intro h
      exfalso
      have h0 : resp.results.countP (fun r => truthyStr r.error) = 0 := by
        rw [← hw.1]; exact hrun.1
      exact (List.countP_eq_zero.mp h0 _ hmem) (truthy_of_deact _ h)
    · intro _
      rw [hcalls]
      rfl
    · intro nid hnid
      exfalso
      have h0 : resp.results.countP
          (fun r => truthyStr r.registration_id) = 0 := by
        rw [← hw.2]; exact hrun.2
      exact (List.countP_eq_zero.mp h0 _ hmem)
        (truthyStr_of_truthyRegIdOf _ nid hnid)
    · intro _
      rw [hcalls]
      rfl

/-- C3, witness: the spec's example: ids `[A, B, C]` with results
`[ok, NotRegistered, registration_id C2]` yield exactly one deactivation
of `B`, exactly one migration `C → C2`, and no call for `A`. -/
theorem reconciler_positional_pairing_witness :
    deactCount "B" (_cm_handle_response (some ["A", "B", "C"])
      ⟨1, 1, [⟨none, none⟩, ⟨some "NotRegistered", none⟩, ⟨none, some "C2"⟩]⟩
      "GCM" []).calls = 1 ∧
    migrPairCount "C" "C2" "GCM" (_cm_handle_response (some ["A", "B", "C"])
      ⟨1, 1, [⟨none, none⟩, ⟨some "NotRegistered", none⟩, ⟨none, some "C2"⟩]⟩
      "GCM" []).calls = 1 ∧
    deactCount "A" (_cm_handle_response (some ["A", "B", "C"])
      ⟨1, 1, [⟨none, none⟩, ⟨some "NotRegistered", none⟩, ⟨none, some "C2"⟩]⟩
      "GCM" []).calls = 0 ∧
    migrFromCount "A" (_cm_handle_response (some ["A", "B", "C"])
      ⟨1, 1, [⟨none, none⟩, ⟨some "NotRegistered", none⟩, ⟨none, some "C2"⟩]⟩
      "GCM" []).calls = 0 :=
  ⟨(reconciler_positional_pairing ["A", "B", "C"]
      ⟨1, 1, [⟨none, none⟩, ⟨some "NotRegistered", none⟩, ⟨none, some "C2"⟩]⟩
      "GCM" [] 1 (by decide) (by decide) (by decide) (by decide)).1 (by decide),
   ((reconciler_positional_pairing ["A", "B", "C"]
      ⟨1, 1, [⟨none, none⟩, ⟨some "NotRegistered", none⟩, ⟨none, some "C2"⟩]⟩
      "GCM" [] 2 (by decide) (by decide) (by decide) (by decide)).2.2.1 "C2"
      (by decide)).1,
   (reconciler_positional_pairing ["A", "B", "C"]
      ⟨1, 1, [⟨none, none⟩, ⟨some "NotRegistered", none⟩, ⟨none, some "C2"⟩]⟩
      "GCM" [] 0 (by decide) (by decide) (by decide) (by decide)).2.1
      (by decide),
   (reconciler_positional_pairing ["A", "B", "C"]
      ⟨1, 1, [⟨none, none⟩, ⟨some "NotRegistered", none⟩, ⟨none, some "C2"⟩]⟩
      "GCM" [] 0 (by decide) (by decide) (by decide) (by decide)).2.2.2
      (by decide)⟩

/-! ### Claim C7 -/

theorem sendChunksLoop_stripped (settings : Settings)
    (hkey : truthyStr settings.FCM_API_KEY = true) (kwargs : Dict)
    (hkw : ∀ k ∈ FCM_NOTIFICATIONS_PAYLOAD_KEYS, truthyAt kwargs k = false) :
    ∀ (chunks : List (List String)) (d : Dict) (reg : List DeviceRecord)
      (acc : List CMResponse) (calls : List RegistryCall) (reqs : List Payload),
      (∀ k ∈ "message" :: FCM_NOTIFICATIONS_PAYLOAD_KEYS, dget d k = none) →
      ∃ resps dfinal extra,
        sendChunksLoop settings benignNet "FCM" true kwargs chunks d reg acc
            calls reqs = (.ok resps, dfinal, reg, calls, reqs ++ extra) ∧
        extra.all (fun p => p.notification.isNone) = true := by
  intro chunks
  induction chunks with
  | nil =>
    intro d reg acc calls reqs _
    exact ⟨acc, d, [], by simp [sendChunksLoop], rfl⟩
  | cons c cs ih =>
    intro d reg acc calls reqs hd
    obtain ⟨resps, dfinal, extra, heq, hall⟩ :=
      ih (build_cm_payload (some c) d "FCM" true kwargs).2.1 reg
        (acc ++ [⟨0, 0, []⟩]) calls
        (reqs ++ [(build_cm_payload (some c) d "FCM" true kwargs).1])
        (fun k hk => build_data_stripped (some c) d kwargs k hk)
    refine ⟨resps, dfinal,
      (build_cm_payload (some c) d "FCM" true kwargs).1 :: extra, ?_, ?_⟩
    · simp only [sendChunksLoop]
      rw [cm_send_request_fcm_benign settings hkey (some c) d true kwargs reg]
      dsimp only
      simp only [List.append_nil]
      rw [heq, List.append_assoc, List.singleton_append]
    · simp only [List.all_cons, hall, Bool.and_true]
      rw [build_notification_none (some c) d kwargs hd hkw]
      rfl

/-- C7: building an FCM payload with the split-notification flag pops the
`message` field and every notification-display field out of the caller's
`data` dict (first conjunct, for any build); consequently a chunked bulk
dispatch, which passes the same `data` dict to every chunk, builds the
first chunk's request from the original `data` and every later chunk's
request from the already-stripped dict, so (with no truthy
notification-display keyword options) only the first request can carry a
notification key. -/
theorem fcm_data_mutation_across_chunks (settings : Settings)
    (l : List String) (C : Nat) (data kwargs : Dict) (reg : List DeviceRecord)
    (rids0 : Option (List String)) (data0 kwargs0 : Dict) (k : String)
    (hk : k ∈ "message" :: FCM_NOTIFICATIONS_PAYLOAD_KEYS)
    (hkey : truthyStr settings.FCM_API_KEY = true)
    (hmax : settings.FCM_MAX_RECIPIENTS = C) (h0 : 0 < C) (hNC : C < l.length)
    (hkw : ∀ k2 ∈ FCM_NOTIFICATIONS_PAYLOAD_KEYS, truthyAt kwargs k2 = false) :
    dget (build_cm_payload rids0 data0 "FCM" true kwargs0).2.1 k = none ∧
    (send_bulk_message settings benignNet (some l) data "FCM" true kwargs
        reg).requests.head? =
      some (build_cm_payload (some (l.take C)) data "FCM" true kwargs).1 ∧
    ((send_bulk_message settings benignNet (some l) data "FCM" true kwargs
        reg).requests.drop 1).all (fun p => p.notification.isNone) = true := by
  refine ⟨build_data_stripped rids0 data0 kwargs0 k hk, ?_⟩
  have hlp : 0 < l.length := by omega
  have hln : l ≠ [] := List.length_pos.mp hlp
  have hchunks : _chunks l C = l.take C :: _chunks (l.drop C) C :=
    chunks_cons l C hln (by omega)
  obtain ⟨resps, dfinal, extra, heq, hall⟩ :=
    sendChunksLoop_stripped settings hkey kwargs hkw (_chunks (l.drop C) C)
      (build_cm_payload (some (l.take C)) data "FCM" true kwargs).2.1 reg
      ([] ++ [⟨0, 0, []⟩]) ([] ++ []) ([] ++
        [(build_cm_payload (some (l.take C)) data "FCM" true kwargs).1])
      (fun k2 hk2 => build_data_stripped (some (l.take C)) data kwargs k2 hk2)
  have hbulk : (send_bulk_message settings benignNet (some l) data "FCM" true
      kwargs reg).requests =
      (build_cm_payload (some (l.take C)) data "FCM" true kwargs).1 :: extra := by
    unfold send_bulk_message
    rw [if_pos (by decide :
      ((("FCM" : String) == "GCM") || (("FCM" : String) == "FCM")) = true)]
    dsimp only
    rw [if_neg (by simp : ¬ ((some l).isNone && !topicInTo kwargs) = true)]
    rw [if_pos (by
      simp only [Bool.and_eq_true, Bool.not_eq_true, decide_eq_true_eq]
      refine ⟨by simp [List.isEmpty_iff, hln], ?_⟩
      rw [if_neg (by decide : ¬ ((("FCM" : String) == "GCM") = true)), hmax]
      exact hNC)]
    rw [if_neg (by decide : ¬ ((("FCM" : String) == "GCM") = true)), hmax]
    rw [hchunks]
    simp only [sendChunksLoop]
    rw [cm_send_request_fcm_benign settings hkey (some (l.take C)) data true
      kwargs reg]
    dsimp only
    rw [heq]
    rfl
  rw [hbulk]
  exact ⟨rfl, hall⟩

/-- C7, witness: a two-chunk dispatch of a `message`-carrying data dict;
hypotheses are discharged at the concrete inputs. -/
theorem fcm_data_mutation_across_chunks_witness :
    dget (build_cm_payload (some ["x"]) [("title", JVal.vstr "T")] "FCM" true
      []).2.1 "title" = none ∧
    (send_bulk_message ⟨none, some "kk", 1000, 1⟩ benignNet
        (some ["r1", "r2"]) [("message", JVal.vstr "hi")] "FCM" true []
        []).requests.head? =
      some (build_cm_payload (some (["r1", "r2"].take 1))
        [("message", JVal.vstr "hi")] "FCM" true []).1 ∧
    ((send_bulk_message ⟨none, some "kk", 1000, 1⟩ benignNet
        (some ["r1", "r2"]) [("message", JVal.vstr "hi")] "FCM" true []
        []).requests.drop 1).all (fun p => p.notification.isNone) = true :=
  fcm_data_mutation_across_chunks ⟨none, some "kk", 1000, 1⟩ ["r1", "r2"] 1
    [("message", JVal.vstr "hi")] [] [] (some ["x"]) [("title", JVal.vstr "T")]
    [] "title" (by decide) rfl rfl (by decide) (by decide) (by decide)

end GCM
